import Mathlib

/-!
Verification of httpresptime (`httpresptime.py`), a command-line tool that
measures HTTP GET response latency.

The HTTP client and the wall clock are modelled together as an oracle that
maps the index of each request issued within a sampling run to its outcome:
either a connection failure, or a response together with the elapsed
wall-clock duration of that request.  Durations are modelled as rational
numbers and Python exceptions as `Except String`.
-/

set_option linter.unusedVariables false

namespace Httpresptime

/-- Result dictionary of `calc_resp_times` with keys `min_time`, `max_time`
and `avg_time`; each value starts out as Python `None`, hence `Option`. -/
structure CalcResult where
  min_time : Option ℚ
  max_time : Option ℚ
  avg_time : Option ℚ
deriving DecidableEq

/-- Loop state of `calc_resp_times`: the `first` flag, the running
minimum and maximum, and the running total. -/
structure CalcState where
  first : Bool
  min_time : Option ℚ
  max_time : Option ℚ
  total_time : ℚ
deriving DecidableEq

/-- One iteration of the `for resp_time in resp_times` loop of
`calc_resp_times`.  On the first iteration the minimum and maximum are
seeded with the current element before `min`/`max` are applied (the code
applies them redundantly on the first element as well).  Python
`min(None, x)` would raise a `TypeError`; the fallback branch mirrors
that and is unreachable because the `first` branch always seeds the
fields. -/
def calcStep (st : CalcState) (t : ℚ) : Except String CalcState :=
  let st1 := if st.first then
    { st with min_time := some t, max_time := some t, first := false } else st
  match st1.min_time, st1.max_time with
  | some mn, some mx =>
      Except.ok { first := st1.first, min_time := some (min mn t),
                  max_time := some (max mx t), total_time := st1.total_time + t }
  | _, _ => Except.error "TypeError"

/-- The loop of `calc_resp_times`, threading the state through the list and
propagating a raised exception. -/
def calcFold : CalcState → List ℚ → Except String CalcState
  | st, [] => Except.ok st
  | st, t :: rest =>
      match calcStep st t with
      | Except.error e => Except.error e
      | Except.ok st1 => calcFold st1 rest

/-- `calc_resp_times`: runs the loop, then computes the average as
`total_time / len(resp_times)`; on an empty input the division raises
`ZeroDivisionError`. -/
def calc_resp_times (resp_times : List ℚ) : Except String CalcResult :=
  match calcFold { first := true, min_time := none, max_time := none, total_time := 0 } resp_times with
  | Except.error e => Except.error e
  | Except.ok st =>
      if resp_times.length = 0 then Except.error "ZeroDivisionError"
      else Except.ok { min_time := st.min_time, max_time := st.max_time,
                       avg_time := some (st.total_time / (resp_times.length : ℚ)) }

theorem calcFold_run (xs : List ℚ) : ∀ mn mx tot : ℚ,
    calcFold { first := false, min_time := some mn, max_time := some mx, total_time := tot } xs =
      Except.ok { first := false, min_time := some (xs.foldl min mn),
                  max_time := some (xs.foldl max mx), total_time := tot + xs.sum } := by
  induction xs with
  | nil => intro mn mx tot; simp [calcFold]
  | cons t rest ih =>
      intro mn mx tot
      simp only [calcFold, calcStep, if_neg Bool.false_ne_true, List.foldl_cons, List.sum_cons]
      rw [ih]
      ring_nf

theorem calc_resp_times_cons (x : ℚ) (xs : List ℚ) :
    calc_resp_times (x :: xs) =
      Except.ok { min_time := some (xs.foldl min x), max_time := some (xs.foldl max x),
                  avg_time := some ((x + xs.sum) / ((xs.length : ℚ) + 1)) } := by
  simp only [calc_resp_times, calcFold, calcStep]
  norm_num [calcFold_run]

theorem lfoldl_min_le_init {α : Type} [LinearOrder α] (xs : List α) :
    ∀ a : α, xs.foldl min a ≤ a := by
  induction xs with
  | nil => intro a; exact le_refl a
  | cons x xs ih =>
      intro a
      calc (x :: xs).foldl min a = xs.foldl min (min a x) := by simp [List.foldl_cons]
        _ ≤ min a x := ih (min a x)
        _ ≤ a := min_le_left a x

theorem lfoldl_min_le_mem {α : Type} [LinearOrder α] {b : α} :
    ∀ (xs : List α) (a : α), b ∈ xs → xs.foldl min a ≤ b := by
  intro xs
  induction xs with
  | nil => intro a hb; cases hb
  | cons x xs ih =>
      intro a hb
      rcases List.mem_cons.mp hb with h | h
      · subst h
        calc (b :: xs).foldl min a = xs.foldl min (min a b) := by simp [List.foldl_cons]
          _ ≤ min a b := lfoldl_min_le_init xs (min a b)
          _ ≤ b := min_le_right a b
      · simpa [List.foldl_cons] using ih (min a x) h

theorem lfoldl_min_eq_or_mem {α : Type} [LinearOrder α] :
    ∀ (xs : List α) (a : α), xs.foldl min a = a ∨ xs.foldl min a ∈ xs := by
  intro xs
  induction xs with
  | nil => intro a; exact Or.inl rfl
  | cons x xs ih =>
      intro a
      rcases ih (min a x) with h | h
      · rcases min_cases a x with ⟨hmin, _⟩ | ⟨hmin, _⟩
        · exact Or.inl (by simpa [List.foldl_cons, hmin] using h)
        · refine Or.inr (List.mem_cons.mpr (Or.inl ?_))
          simpa [List.foldl_cons, hmin] using h
      · exact Or.inr (List.mem_cons.mpr (Or.inr (by simpa [List.foldl_cons] using h)))

theorem lfoldl_le_max_init {α : Type} [LinearOrder α] (xs : List α) :
    ∀ a : α, a ≤ xs.foldl max a := by
  induction xs with
  | nil => intro a; exact le_refl a
  | cons x xs ih =>
      intro a
      calc a ≤ max a x := le_max_left a x
        _ ≤ xs.foldl max (max a x) := ih (max a x)
        _ = (x :: xs).foldl max a := by simp [List.foldl_cons]

theorem lfoldl_le_max_mem {α : Type} [LinearOrder α] {b : α} :
    ∀ (xs : List α) (a : α), b ∈ xs → b ≤ xs.foldl max a := by
  intro xs
  induction xs with
  | nil => intro a hb; cases hb
  | cons x xs ih =>
      intro a hb
      rcases List.mem_cons.mp hb with h | h
      · subst h
        calc b ≤ max a b := le_max_right a b
          _ ≤ xs.foldl max (max a b) := lfoldl_le_max_init xs (max a b)
          _ = (b :: xs).foldl max a := by simp [List.foldl_cons]
      · simpa [List.foldl_cons] using ih (max a x) h

theorem lfoldl_max_eq_or_mem {α : Type} [LinearOrder α] :
    ∀ (xs : List α) (a : α), xs.foldl max a = a ∨ xs.foldl max a ∈ xs := by
  intro xs
  induction xs with
  | nil => intro a; exact Or.inl rfl
  | cons x xs ih =>
      intro a
      rcases ih (max a x) with h | h
      · rcases max_cases a x with ⟨hmax, _⟩ | ⟨hmax, _⟩
        · exact Or.inl (by simpa [List.foldl_cons, hmax] using h)
        · refine Or.inr (List.mem_cons.mpr (Or.inl ?_))
          simpa [List.foldl_cons, hmax] using h
      · exact Or.inr (List.mem_cons.mpr (Or.inr (by simpa [List.foldl_cons] using h)))

theorem length_mul_le_sum (l : List ℚ) (m : ℚ) (h : ∀ x ∈ l, m ≤ x) :
    (l.length : ℚ) * m ≤ l.sum := by
  induction l with
  | nil => simp
  | cons x xs ih =>
      have hx : m ≤ x := h x (List.mem_cons_self x xs)
      have hxs : (xs.length : ℚ) * m ≤ xs.sum :=
        ih (fun y hy => h y (List.mem_cons.mpr (Or.inr hy)))
      simp only [List.length_cons, List.sum_cons]
      push_cast
      nlinarith

theorem sum_le_length_mul (l : List ℚ) (M : ℚ) (h : ∀ x ∈ l, x ≤ M) :
    l.sum ≤ (l.length : ℚ) * M := by
  induction l with
  | nil => simp
  | cons x xs ih =>
      have hx : x ≤ M := h x (List.mem_cons_self x xs)
      have hxs : xs.sum ≤ (xs.length : ℚ) * M :=
        ih (fun y hy => h y (List.mem_cons.mpr (Or.inr hy)))
      simp only [List.length_cons, List.sum_cons]
      push_cast
      nlinarith

/-- Claim C1: for every non-empty sequence of durations, `calc_resp_times`
returns `min_time` equal to the minimum element of the sequence, `max_time`
equal to the maximum element, `avg_time` equal to the arithmetic mean, and
these satisfy `min_time <= avg_time <= max_time`. -/
theorem calc_resp_times_min_max_avg (l : List ℚ) (h : l ≠ []) :
    ∃ m M a, calc_resp_times l =
        Except.ok { min_time := some m, max_time := some M, avg_time := some a } ∧
      m ∈ l ∧ M ∈ l ∧ (∀ y ∈ l, m ≤ y ∧ y ≤ M) ∧
      a = l.sum / (l.length : ℚ) ∧ m ≤ a ∧ a ≤ M := by
  cases l with
  | nil => exact absurd rfl h
  | cons x xs =>
      refine ⟨xs.foldl min x, xs.foldl max x, (x + xs.sum) / ((xs.length : ℚ) + 1),
        calc_resp_times_cons x xs, ?_, ?_, ?_, ?_, ?_, ?_⟩
      · rcases lfoldl_min_eq_or_mem xs x with h1 | h1
        · rw [h1]; exact List.mem_cons_self x xs
        · exact List.mem_cons.mpr (Or.inr h1)
      · rcases lfoldl_max_eq_or_mem xs x with h1 | h1
        · rw [h1]; exact List.mem_cons_self x xs
        · exact List.mem_cons.mpr (Or.inr h1)
      · intro y hy
        rcases List.mem_cons.mp hy with h1 | h1
        · subst h1; exact ⟨lfoldl_min_le_init xs y, lfoldl_le_max_init xs y⟩
        · exact ⟨lfoldl_min_le_mem xs x h1, lfoldl_le_max_mem xs x h1⟩
      · simp only [List.sum_cons, List.length_cons]
        push_cast
        ring_nf
      · have hlen : (0 : ℚ) < (xs.length : ℚ) + 1 := by positivity
        rw [le_div_iff₀ hlen]
        have hmono : ∀ y ∈ x :: xs, xs.foldl min x ≤ y := by
          intro y hy
          rcases List.mem_cons.mp hy with h1 | h1
          · subst h1; exact lfoldl_min_le_init xs y
          · exact lfoldl_min_le_mem xs x h1
        have := length_mul_le_sum (x :: xs) (xs.foldl min x) hmono
        simp only [List.length_cons, List.sum_cons] at this
        push_cast at this
        nlinarith
      · have hlen : (0 : ℚ) < (xs.length : ℚ) + 1 := by positivity
        rw [div_le_iff₀ hlen]
        have hmono : ∀ y ∈ x :: xs, y ≤ xs.foldl max x := by
          intro y hy
          rcases List.mem_cons.mp hy with h1 | h1
          · subst h1; exact lfoldl_le_max_init xs y
          · exact lfoldl_le_max_mem xs x h1
        have := sum_le_length_mul (x :: xs) (xs.foldl max x) hmono
        simp only [List.length_cons, List.sum_cons] at this
        push_cast at this
        nlinarith

/-- Witness for C1: the spec example `[0.05, 0.07, 0.06]`. -/
theorem calc_resp_times_min_max_avg_witness :
    ([(5 : ℚ)/100, 7/100, 6/100] ≠ []) ∧
    ∃ m M a, calc_resp_times [(5 : ℚ)/100, 7/100, 6/100] =
        Except.ok { min_time := some m, max_time := some M, avg_time := some a } ∧
      m ∈ [(5 : ℚ)/100, 7/100, 6/100] ∧ M ∈ [(5 : ℚ)/100, 7/100, 6/100] ∧
      (∀ y ∈ [(5 : ℚ)/100, 7/100, 6/100], m ≤ y ∧ y ≤ M) ∧
      a = [(5 : ℚ)/100, 7/100, 6/100].sum / (([(5 : ℚ)/100, 7/100, 6/100].length : ℚ)) ∧
      m ≤ a ∧ a ≤ M :=
  ⟨by decide, calc_resp_times_min_max_avg [(5 : ℚ)/100, 7/100, 6/100] (by decide)⟩

/-- Claim C8: for a sequence of length exactly 1, the reducer returns
`min_time`, `max_time` and `avg_time` all equal to the single element. -/
theorem calc_resp_times_singleton (x : ℚ) :
    calc_resp_times [x] =
      Except.ok { min_time := some x, max_time := some x, avg_time := some x } := by
  have h := calc_resp_times_cons x []
  simpa using h

/-- Claim C7: `calc_resp_times` raises an error (a `ZeroDivisionError`,
from the division `total_time / len(resp_times)`) when and only when it is
applied to an empty input sequence. -/
theorem calc_resp_times_error_iff_empty :
    calc_resp_times ([] : List ℚ) = Except.error "ZeroDivisionError" ∧
    ∀ l : List ℚ, (∃ e, calc_resp_times l = Except.error e) ↔ l = [] := by
  constructor
  · rfl
  · intro l
    constructor
    · rintro ⟨e, he⟩
      cases l with
      | nil => rfl
      | cons x xs => rw [calc_resp_times_cons] at he; cases he
    · rintro rfl
      exact ⟨"ZeroDivisionError", rfl⟩

/-- Witness for C7: the reducer does raise on the empty list. -/
theorem calc_resp_times_error_iff_empty_witness :
    ∃ e, calc_resp_times ([] : List ℚ) = Except.error e :=
  (calc_resp_times_error_iff_empty.2 []).mpr rfl

/-- An HTTP response as far as the tool observes it: the status code and the
body size (`len(r.text)`). -/
structure HttpResponse where
  status_code : Nat
  bodySize : Nat
deriving DecidableEq

/-- Outcome of one `get` call against the network oracle: a connection
failure (a raised `requests` exception) or a response together with the
elapsed wall-clock duration `end - start` of the call. -/
inductive NetResult where
  | fail (msg : String)
  | ok (duration : ℚ) (resp : HttpResponse)
deriving DecidableEq

/-- Instrumentation record of one GET request issued by the sampler:
the target URL, whether it went through the keepalive `requests.Session`
(as opposed to the bare `requests` module, which opens an independent
connection per call), whether it was surrounded by the timing measurement,
and the measured duration (`none` for the untimed priming request and for a
request whose `get` call raised before the end timestamp was taken). -/
structure ReqEvent where
  url : String
  usesSession : Bool
  timed : Bool
  duration : Option ℚ
deriving DecidableEq

/-- Return dictionary of `time_url`: the three `calc_resp_times` fields plus
`last_status_code` and `last_size` of the final response. -/
structure TimeUrlResult where
  min_time : Option ℚ
  max_time : Option ℚ
  avg_time : Option ℚ
  last_status_code : Nat
  last_size : Nat
deriving DecidableEq

/-- A whole sampling run: the trace of requests issued, the `resp_times`
list accumulated by the loop, and the returned value (or the exception that
propagated out of `time_url`). -/
structure TimeUrlRun where
  trace : List ReqEvent
  resp_times : List ℚ
  result : Except String TimeUrlResult

/-- `Response.raise_for_status` raises `HTTPError` exactly for client and
server error status codes, `400 <= status_code < 600`. -/
def isHttpError (code : Nat) : Bool :=
  400 ≤ code && code < 600

/-- The `for _ in range(num_requests)` loop of `time_url`.  Arguments after
the session flag: remaining iterations, index of the next oracle request,
the `resp_times` accumulator, the trace accumulator, and the last response
seen (the Python loop variable `r`).  The duration is appended to
`resp_times` before `raise_for_status` is checked, exactly as in the
source. -/
def timeLoop (net : Nat → NetResult) (url : String) (s : Bool) :
    Nat → Nat → List ℚ → List ReqEvent → Option HttpResponse →
      List ReqEvent × List ℚ × Except String (Option HttpResponse)
  | 0, _, times, trace, last => (trace, times, Except.ok last)
  | k + 1, idx, times, trace, last =>
      match net idx with
      | NetResult.fail msg =>
          (trace ++ [{ url := url, usesSession := s, timed := true, duration := none }],
           times, Except.error msg)
      | NetResult.ok dur resp =>
          let trace1 := trace ++ [{ url := url, usesSession := s, timed := true, duration := some dur }]
          let times1 := times ++ [dur]
          if isHttpError resp.status_code then
            (trace1, times1, Except.error ("HTTPError " ++ toString resp.status_code))
          else
            timeLoop net url s k (idx + 1) times1 trace1 (some resp)

/-- The tail of `time_url` after the optional priming request: run the timed
loop, reduce with `calc_resp_times`, and read the status code and body size
off the last response.  The `NameError` branch mirrors Python reading the
unbound loop variable `r`; it is unreachable because `calc_resp_times`
raises first whenever the loop did not run. -/
def time_url_body (net : Nat → NetResult) (url : String) (num_requests idx0 : Nat)
    (trace0 : List ReqEvent) (s : Bool) : TimeUrlRun :=
  match timeLoop net url s num_requests idx0 [] trace0 none with
  | (tr, tm, Except.error msg) => { trace := tr, resp_times := tm, result := Except.error msg }
  | (tr, tm, Except.ok last) =>
      match calc_resp_times tm with
      | Except.error msg => { trace := tr, resp_times := tm, result := Except.error msg }
      | Except.ok cr =>
          match last with
          | none => { trace := tr, resp_times := tm, result := Except.error "NameError" }
          | some r =>
              { trace := tr, resp_times := tm,
                result := Except.ok { min_time := cr.min_time, max_time := cr.max_time,
                                      avg_time := cr.avg_time,
                                      last_status_code := r.status_code,
                                      last_size := r.bodySize } }

/-- `time_url`: with keepalive a `requests.Session` is created and one
untimed priming `get` is issued (its response status is not checked);
without keepalive the bare `requests` module is used and no priming request
is sent.  Then the timed loop runs and the samples are reduced. -/
def time_url (net : Nat → NetResult) (url : String) (num_requests : Nat)
    (display_progress : Bool) (use_keepalive : Bool) : TimeUrlRun :=
  if use_keepalive then
    match net 0 with
    | NetResult.fail msg =>
        { trace := [{ url := url, usesSession := true, timed := false, duration := none }],
          resp_times := [], result := Except.error msg }
    | NetResult.ok _ _ =>
        time_url_body net url num_requests 1
          [{ url := url, usesSession := true, timed := false, duration := none }] true
  else
    time_url_body net url num_requests 0 [] false

/-- The untimed priming request issued by `time_url` when keepalive is on. -/
def primingEvent (url : String) : ReqEvent :=
  { url := url, usesSession := true, timed := false, duration := none }

theorem timeLoop_ok (net : Nat → NetResult) (url : String) (s : Bool) :
    ∀ (k idx : Nat) (times : List ℚ) (trace : List ReqEvent) (last : Option HttpResponse)
      (tr : List ReqEvent) (tm : List ℚ) (lastout : Option HttpResponse),
      timeLoop net url s k idx times trace last = (tr, tm, Except.ok lastout) →
      ∃ ev ts,
        tr = trace ++ ev ∧ tm = times ++ ts ∧
        ev.length = k ∧ ts.length = k ∧
        ev.map ReqEvent.duration = ts.map some ∧
        (∀ e ∈ ev, e.url = url ∧ e.usesSession = s ∧ e.timed = true) ∧
        (∀ j, j < k → ∃ d r, net (idx + j) = NetResult.ok d r ∧
          isHttpError r.status_code = false) ∧
        (k = 0 → lastout = last) ∧
        (0 < k → ∃ d r, net (idx + k - 1) = NetResult.ok d r ∧ lastout = some r) := by
  intro k
  induction k with
  | zero =>
      intro idx times trace last tr tm lastout h
      simp only [timeLoop, Prod.mk.injEq, Except.ok.injEq] at h
      obtain ⟨rfl, rfl, rfl⟩ := h
      refine ⟨[], [], by simp, by simp, rfl, rfl, rfl, ?_, ?_, fun _ => rfl, ?_⟩
      · intro e he; cases he
      · intro j hj; omega
      · intro h0; omega
  | succ k ih =>
      intro idx times trace last tr tm lastout h
      simp only [timeLoop] at h
      cases hnet : net idx with
      | fail msg =>
          rw [hnet] at h
          simp only [Prod.mk.injEq] at h
          cases h.2.2
      | ok dur resp =>
          rw [hnet] at h
          simp only at h
          by_cases herr : isHttpError resp.status_code = true
          · rw [if_pos herr] at h
            simp only [Prod.mk.injEq] at h
            cases h.2.2
          · rw [if_neg herr] at h
            obtain ⟨ev, ts, htr, htm, hlev, hlts, hmap, hprops, hrange, hk0, hlast⟩ :=
              ih (idx + 1) (times ++ [dur])
                (trace ++ [{ url := url, usesSession := s, timed := true, duration := some dur }])
                (some resp) tr tm lastout h
            refine ⟨{ url := url, usesSession := s, timed := true, duration := some dur } :: ev,
              dur :: ts, ?_, ?_, by simp [hlev], by simp [hlts], by simp [hmap], ?_, ?_, ?_, ?_⟩
            · rw [htr, List.append_assoc]; rfl
            · rw [htm, List.append_assoc]; rfl
            · intro e he
              rcases List.mem_cons.mp he with h1 | h1
              · subst h1; exact ⟨rfl, rfl, rfl⟩
              · exact hprops e h1
            · intro j hj
              cases j with
              | zero =>
                  refine ⟨dur, resp, ?_, ?_⟩
                  · simpa using hnet
                  · exact Bool.eq_false_iff.mpr herr
              | succ j1 =>
                  obtain ⟨d, r1, hr1, hr2⟩ := hrange j1 (by omega)
                  have harith : idx + 1 + j1 = idx + (j1 + 1) := by omega
                  rw [harith] at hr1
                  exact ⟨d, r1, hr1, hr2⟩
            · intro h0; omega
            · intro _
              cases k with
              | zero =>
                  refine ⟨dur, resp, ?_, hk0 rfl⟩
                  simpa using hnet
              | succ k1 =>
                  obtain ⟨d, r1, hr1, hr2⟩ := hlast (Nat.succ_pos k1)
                  have harith : idx + 1 + (k1 + 1) - 1 = idx + (k1 + 1 + 1) - 1 := by omega
                  rw [harith] at hr1
                  exact ⟨d, r1, hr1, hr2⟩

theorem calc_resp_times_ok_ne_nil (l : List ℚ) (cr : CalcResult)
    (h : calc_resp_times l = Except.ok cr) : l ≠ [] := by
  intro hnil
  subst hnil
  rw [calc_resp_times_error_iff_empty.1] at h
  cases h

theorem time_url_body_ok (net : Nat → NetResult) (url : String) (n idx0 : Nat)
    (trace0 : List ReqEvent) (s : Bool) (r : TimeUrlResult)
    (h : (time_url_body net url n idx0 trace0 s).result = Except.ok r) :
    0 < n ∧
    ∃ ev,
      (time_url_body net url n idx0 trace0 s).trace = trace0 ++ ev ∧
      ev.length = n ∧
      (∀ e ∈ ev, e.url = url ∧ e.usesSession = s ∧ e.timed = true) ∧
      ev.map ReqEvent.duration = ((time_url_body net url n idx0 trace0 s).resp_times).map some ∧
      (time_url_body net url n idx0 trace0 s).resp_times.length = n ∧
      (∀ j, j < n → ∃ d rj, net (idx0 + j) = NetResult.ok d rj ∧
        isHttpError rj.status_code = false) ∧
      (∃ cr, calc_resp_times (time_url_body net url n idx0 trace0 s).resp_times = Except.ok cr ∧
        r.min_time = cr.min_time ∧ r.max_time = cr.max_time ∧ r.avg_time = cr.avg_time) ∧
      (∃ d rl, net (idx0 + n - 1) = NetResult.ok d rl ∧
        r.last_status_code = rl.status_code ∧ r.last_size = rl.bodySize) := by
  rcases hloop : timeLoop net url s n idx0 [] trace0 none with ⟨tr, tm, res⟩
  rw [time_url_body, hloop] at h ⊢
  cases res with
  | error msg => simp at h
  | ok last =>
      dsimp only at h ⊢
      rcases hcalc : calc_resp_times tm with e | cr
      · rw [hcalc] at h
        simp at h
      · rw [hcalc] at h
        dsimp only at h ⊢
        cases last with
        | none => simp at h
        | some rlast =>
            dsimp only at h ⊢
            simp only [Except.ok.injEq] at h
            subst h
            obtain ⟨ev, ts, htr, htm, hlev, hlts, hmap, hprops, hrange, hk0, hlastr⟩ :=
              timeLoop_ok net url s n idx0 [] trace0 none tr tm (some rlast) hloop
            have htmts : tm = ts := by simpa using htm
            subst htmts
            have hne : tm ≠ [] := calc_resp_times_ok_ne_nil tm cr hcalc
            have hpos : 0 < n := by
              rcases Nat.eq_zero_or_pos n with h0 | h0
              · exfalso
                apply hne
                subst h0
                exact List.length_eq_zero.mp hlts
              · exact h0
            refine ⟨hpos, ev, htr, hlev, hprops, hmap, hlts, hrange,
              ⟨cr, hcalc, rfl, rfl, rfl⟩, ?_⟩
            obtain ⟨d, rl, hrl, hsome⟩ := hlastr hpos
            refine ⟨d, rl, hrl, ?_, ?_⟩
            · cases hsome; rfl
            · cases hsome; rfl

theorem time_url_ok_spec (net : Nat → NetResult) (url : String) (n : Nat) (dp ka : Bool)
    (r : TimeUrlResult) (h : (time_url net url n dp ka).result = Except.ok r) :
    0 < n ∧
    ∃ ev,
      (time_url net url n dp ka).trace = (if ka then [primingEvent url] else []) ++ ev ∧
      ev.length = n ∧
      (∀ e ∈ ev, e.url = url ∧ e.usesSession = ka ∧ e.timed = true) ∧
      ev.map ReqEvent.duration = ((time_url net url n dp ka).resp_times).map some ∧
      (time_url net url n dp ka).resp_times.length = n ∧
      (∀ j, j < n → ∃ d rj, net ((if ka then 1 else 0) + j) = NetResult.ok d rj ∧
        isHttpError rj.status_code = false) ∧
      (∃ cr, calc_resp_times (time_url net url n dp ka).resp_times = Except.ok cr ∧
        r.min_time = cr.min_time ∧ r.max_time = cr.max_time ∧ r.avg_time = cr.avg_time) ∧
      (∃ d rl, net ((if ka then 1 else 0) + n - 1) = NetResult.ok d rl ∧
        r.last_status_code = rl.status_code ∧ r.last_size = rl.bodySize) := by
  cases ka with
  | false =>
      rw [time_url, if_neg (by simp)] at h ⊢
      simpa using time_url_body_ok net url n 0 [] false r h
  | true =>
      rw [time_url, if_pos rfl] at h ⊢
      cases hnet0 : net 0 with
      | fail msg =>
          rw [hnet0] at h
          simp at h
      | ok d0 r0 =>
          rw [hnet0] at h
          dsimp only at h ⊢
          simpa [primingEvent] using
            time_url_body_ok net url n 1
              [{ url := url, usesSession := true, timed := false, duration := none }] true r h

/-- A network oracle on which every request succeeds with duration 1 and a
`200` response of body size 3. -/
def netOk : Nat → NetResult :=
  fun _ => NetResult.ok 1 { status_code := 200, bodySize := 3 }

/-- A network oracle whose first request (the priming request of a
keepalive run) gets a `500` response; every later request gets a `200`. -/
def net500 : Nat → NetResult :=
  fun i => if i = 0 then NetResult.ok 1 { status_code := 500, bodySize := 3 }
           else NetResult.ok 1 { status_code := 200, bodySize := 3 }

/-- Oracle producing the duration sequence `[1, 0, 2]` (all `200`). -/
def netSeqA : Nat → NetResult :=
  fun i => if i = 0 then NetResult.ok 1 { status_code := 200, bodySize := 7 }
           else if i = 1 then NetResult.ok 0 { status_code := 200, bodySize := 7 }
           else NetResult.ok 2 { status_code := 200, bodySize := 7 }

/-- Oracle producing the duration sequence `[0, 2, 1]` (all `200`). -/
def netSeqB : Nat → NetResult :=
  fun i => if i = 0 then NetResult.ok 0 { status_code := 200, bodySize := 7 }
           else if i = 1 then NetResult.ok 2 { status_code := 200, bodySize := 7 }
           else NetResult.ok 1 { status_code := 200, bodySize := 7 }

/-- The value `time_url` returns on `netOk` with two requests. -/
def sampleResult : TimeUrlResult :=
  { min_time := some 1, max_time := some 1, avg_time := some 1,
    last_status_code := 200, last_size := 3 }

theorem netOk_result_no_keepalive :
    (time_url netOk "u" 2 false false).result = Except.ok sampleResult := by
  norm_num [time_url, time_url_body, timeLoop, calc_resp_times, calcFold, calcStep,
    netOk, isHttpError, sampleResult]

theorem netOk_result_keepalive :
    (time_url netOk "u" 2 false true).result = Except.ok sampleResult := by
  norm_num [time_url, time_url_body, timeLoop, calc_resp_times, calcFold, calcStep,
    netOk, isHttpError, sampleResult]

/-- Claim C2: for every URL, request count `n >= 1` and connection-reuse
flag, a successful sampling run issues exactly `n` timed GET requests, all
against the given URL, and records exactly `n` duration values, one per
request, in the order the requests were issued. -/
theorem time_url_issues_n_timed_requests (net : Nat → NetResult) (url : String) (n : Nat)
    (dp ka : Bool) (r : TimeUrlResult) (hn : 1 ≤ n)
    (h : (time_url net url n dp ka).result = Except.ok r) :
    ((time_url net url n dp ka).trace.filter (fun e => e.timed)).length = n ∧
    ((time_url net url n dp ka).trace.filter (fun e => e.timed)).map ReqEvent.duration =
      ((time_url net url n dp ka).resp_times).map some ∧
    (time_url net url n dp ka).resp_times.length = n ∧
    (∀ e ∈ (time_url net url n dp ka).trace, e.url = url) := by
  obtain ⟨hpos, ev, htr, hlen, hprops, hmap, htl, hrange, hcalc, hlast⟩ :=
    time_url_ok_spec net url n dp ka r h
  have hfilter : (time_url net url n dp ka).trace.filter (fun e => e.timed) = ev := by
    rw [htr, List.filter_append]
    have h1 : ((if ka then [primingEvent url] else []).filter (fun e => e.timed)) = [] := by
      cases ka <;> simp [primingEvent]
    have h2 : ev.filter (fun e => e.timed) = ev :=
      List.filter_eq_self.mpr (fun e he => by simpa using (hprops e he).2.2)
    rw [h1, h2, List.nil_append]
  refine ⟨by rw [hfilter, hlen], by rw [hfilter, hmap], htl, ?_⟩
  intro e he
  rw [htr] at he
  rcases List.mem_append.mp he with h1 | h1
  · have he2 : e = primingEvent url := by
      cases ka
      · simp at h1
      · simpa using h1
    rw [he2]
    rfl
  · exact (hprops e h1).1

/-- Witness for C2 on a concrete oracle (two requests, no keepalive). -/
theorem time_url_issues_n_timed_requests_witness :
    (1 ≤ 2) ∧
    ((time_url netOk "u" 2 false false).result = Except.ok sampleResult) ∧
    (((time_url netOk "u" 2 false false).trace.filter (fun e => e.timed)).length = 2 ∧
     ((time_url netOk "u" 2 false false).trace.filter (fun e => e.timed)).map ReqEvent.duration =
       ((time_url netOk "u" 2 false false).resp_times).map some ∧
     (time_url netOk "u" 2 false false).resp_times.length = 2 ∧
     (∀ e ∈ (time_url netOk "u" 2 false false).trace, e.url = "u")) :=
  ⟨by decide, netOk_result_no_keepalive,
   time_url_issues_n_timed_requests netOk "u" 2 false false sampleResult (by decide)
     netOk_result_no_keepalive⟩

/-- Claim C3: on a successful run, if keepalive is enabled the trace is
exactly one untimed priming request through the session followed by the
timed loop; if keepalive is disabled there is no priming request and every
request is a timed one issued outside any session, i.e. on an independent
connection. -/
theorem time_url_priming_request (net : Nat → NetResult) (url : String) (n : Nat)
    (dp ka : Bool) (r : TimeUrlResult)
    (h : (time_url net url n dp ka).result = Except.ok r) :
    (ka = true → ∃ ev, (time_url net url n dp ka).trace = primingEvent url :: ev ∧
      ev.length = n ∧ (primingEvent url).timed = false ∧
      (primingEvent url).usesSession = true ∧
      (∀ e ∈ ev, e.timed = true ∧ e.usesSession = true)) ∧
    (ka = false → (time_url net url n dp ka).trace.length = n ∧
      (∀ e ∈ (time_url net url n dp ka).trace, e.timed = true ∧ e.usesSession = false)) := by
  obtain ⟨hpos, ev, htr, hlen, hprops, hmap, htl, hrange, hcalc, hlast⟩ :=
    time_url_ok_spec net url n dp ka r h
  constructor
  · rintro rfl
    exact ⟨ev, by simpa using htr, hlen, rfl, rfl,
      fun e he => ⟨(hprops e he).2.2, (hprops e he).2.1⟩⟩
  · rintro rfl
    constructor
    · rw [htr]
      simpa using hlen
    · intro e he
      rw [htr] at he
      simp only [if_neg Bool.false_ne_true, List.nil_append] at he
      exact ⟨(hprops e he).2.2, (hprops e he).2.1⟩

/-- Witness for C3 on a concrete keepalive run. -/
theorem time_url_priming_request_witness :
    ((time_url netOk "u" 2 false true).result = Except.ok sampleResult) ∧
    ((true = true → ∃ ev, (time_url netOk "u" 2 false true).trace = primingEvent "u" :: ev ∧
        ev.length = 2 ∧ (primingEvent "u").timed = false ∧
        (primingEvent "u").usesSession = true ∧
        (∀ e ∈ ev, e.timed = true ∧ e.usesSession = true)) ∧
     (true = false → (time_url netOk "u" 2 false true).trace.length = 2 ∧
        (∀ e ∈ (time_url netOk "u" 2 false true).trace,
          e.timed = true ∧ e.usesSession = false))) :=
  ⟨netOk_result_keepalive,
   time_url_priming_request netOk "u" 2 false true sampleResult netOk_result_keepalive⟩

/-- Counterexample to claim C4 as stated: on `net500` the priming response
of the keepalive run has HTTP error status 500, a response received during
the sampling run, yet `time_url` does not abort: it returns a summary.
The sampler only checks `raise_for_status` on the timed requests. -/
theorem time_url_priming_error_status_ignored :
    net500 0 = NetResult.ok 1 { status_code := 500, bodySize := 3 } ∧
    isHttpError 500 = true ∧
    (time_url net500 "u" 2 false true).trace =
      [primingEvent "u",
       { url := "u", usesSession := true, timed := true, duration := some 1 },
       { url := "u", usesSession := true, timed := true, duration := some 1 }] ∧
    (time_url net500 "u" 2 false true).result = Except.ok sampleResult :=
  ⟨rfl, rfl, by rfl,
   by norm_num [time_url, time_url_body, timeLoop, calc_resp_times, calcFold, calcStep,
     net500, isHttpError, sampleResult]⟩

/-- Counterexample to claim C6 as stated: the value `time_url` returns does
not contain the ordered sequence of per-request durations.  Two runs whose
duration sequences differ (`[1, 0, 2]` versus `[0, 2, 1]`) return exactly
the same value, so the returned value cannot determine the sequence. -/
theorem time_url_result_omits_duration_sequence :
    (time_url netSeqA "u" 3 false false).resp_times = [1, 0, 2] ∧
    (time_url netSeqB "u" 3 false false).resp_times = [0, 2, 1] ∧
    (time_url netSeqA "u" 3 false false).resp_times ≠
      (time_url netSeqB "u" 3 false false).resp_times ∧
    (time_url netSeqA "u" 3 false false).result =
      (time_url netSeqB "u" 3 false false).result :=
  ⟨by rfl, by rfl, by decide,
   by norm_num [time_url, time_url_body, timeLoop, calc_resp_times, calcFold, calcStep,
     netSeqA, netSeqB, isHttpError]⟩

/-- Claim C6 amended: on success the sampler returns the `min`/`max`/`avg`
summary of the ordered duration sequence (the `calc_resp_times` of the
recorded `resp_times`), together with the status code and the body size of
the last response. -/
theorem time_url_returns_summary_and_last (net : Nat → NetResult) (url : String) (n : Nat)
    (dp ka : Bool) (r : TimeUrlResult)
    (h : (time_url net url n dp ka).result = Except.ok r) :
    ∃ cr, calc_resp_times (time_url net url n dp ka).resp_times = Except.ok cr ∧
      r.min_time = cr.min_time ∧ r.max_time = cr.max_time ∧ r.avg_time = cr.avg_time ∧
      ∃ d rl, net ((if ka then 1 else 0) + n - 1) = NetResult.ok d rl ∧
        r.last_status_code = rl.status_code ∧ r.last_size = rl.bodySize := by
  obtain ⟨hpos, ev, htr, hlen, hprops, hmap, htl, hrange, ⟨cr, hcr, h1, h2, h3⟩, hlast⟩ :=
    time_url_ok_spec net url n dp ka r h
  exact ⟨cr, hcr, h1, h2, h3, hlast⟩

/-- Witness for the amended C6 on a concrete keepalive run. -/
theorem time_url_returns_summary_and_last_witness :
    ((time_url netOk "u" 2 false true).result = Except.ok sampleResult) ∧
    (∃ cr, calc_resp_times (time_url netOk "u" 2 false true).resp_times = Except.ok cr ∧
      sampleResult.min_time = cr.min_time ∧ sampleResult.max_time = cr.max_time ∧
      sampleResult.avg_time = cr.avg_time ∧
      ∃ d rl, netOk ((if true then 1 else 0) + 2 - 1) = NetResult.ok d rl ∧
        sampleResult.last_status_code = rl.status_code ∧
        sampleResult.last_size = rl.bodySize) :=
  ⟨netOk_result_keepalive,
   time_url_returns_summary_and_last netOk "u" 2 false true sampleResult netOk_result_keepalive⟩

/-- Wall-clock timestamp as `datetime.datetime.now()` exposes it. -/
structure Timestamp where
  year : Nat
  month : Nat
  day : Nat
  hour : Nat
  minute : Nat
  second : Nat
deriving DecidableEq

/-- Python `%02d`: decimal rendering zero-padded to width 2. -/
def pad2 (n : Nat) : String :=
  if n < 10 then "0" ++ toString n else toString n

/-- Python `%04d`: decimal rendering zero-padded to width 4. -/
def pad4 (n : Nat) : String :=
  if n < 10 then "000" ++ toString n
  else if n < 100 then "00" ++ toString n
  else if n < 1000 then "0" ++ toString n
  else toString n

/-- The timestamp text `loop_url` prints at the start of each iteration
(with `end=''`): full date when verbose, time of day otherwise. -/
def loopStamp (verbose : Bool) (now : Timestamp) : String :=
  if verbose then
    pad4 now.year ++ "-" ++ pad2 now.month ++ "-" ++ pad2 now.day ++ " " ++
      pad2 now.hour ++ ":" ++ pad2 now.minute ++ ":" ++ pad2 now.second ++ ": "
  else
    pad2 now.hour ++ ":" ++ pad2 now.minute ++ ":" ++ pad2 now.second ++ ": "

/-- Python `%.04f`: fixed-point rendering with four decimals, here of a
rational, rounding to the nearest multiple of `1/10000`. -/
def format4 (q : ℚ) : String :=
  let scaled : Int := round (q * 10000)
  let sign := if scaled < 0 then "-" else ""
  let a := scaled.natAbs
  sign ++ toString (a / 10000) ++ "." ++ pad4 (a % 10000)

/-- Rendering of the `min_time` field in the loop output.  On a successful
run the field is always set; Python would raise a `TypeError` when
formatting `None`, which cannot happen here. -/
def format4Opt : Option ℚ → String
  | some q => format4 q
  | none => "None"

/-- What one iteration of `loop_url` produces: the strings passed to
`print` (the timestamp with `end=''`, then either the error report or the
measurement line) and the delay slept at the end before the next
iteration. -/
structure LoopIter where
  prints : List String
  slept : Nat
deriving DecidableEq

/-- One iteration of the `while True` loop of `loop_url`: print the
timestamp, call `time_url(url, num_requests=1, display_progress=False,
use_keepalive=use_keepalive)`, catch any exception and print it as
`ERROR: <message>`, otherwise print the measurement; then sleep. -/
def loop_iteration (net : Nat → NetResult) (url : String) (delay : Nat)
    (use_keepalive verbose : Bool) (now : Timestamp) : LoopIter :=
  let pre := loopStamp verbose now
  match (time_url net url 1 false use_keepalive).result with
  | Except.error e => { prints := [pre, "ERROR: " ++ e], slept := delay }
  | Except.ok res =>
      if verbose then
        { prints := [pre, format4Opt res.min_time ++ "s  retcode: " ++
            toString res.last_status_code ++ ", size: " ++ toString res.last_size],
          slept := delay }
      else
        { prints := [pre, format4Opt res.min_time], slept := delay }

/-- Finite unrolling of the endless loop of `loop_url`, starting at
iteration `i`: each iteration draws a fresh network oracle `nets i` and a
fresh timestamp `nows i`.  The loop itself never terminates; the fuel only
bounds how far it is observed. -/
def loop_url_from (nets : Nat → Nat → NetResult) (url : String) (delay : Nat)
    (use_keepalive verbose : Bool) (nows : Nat → Timestamp) (i : Nat) :
    Nat → List LoopIter
  | 0 => []
  | fuel + 1 =>
      loop_iteration (nets i) url delay use_keepalive verbose (nows i) ::
        loop_url_from nets url delay use_keepalive verbose nows (i + 1) fuel

/-- The first `fuel` iterations of `loop_url`. -/
def loop_url_steps (nets : Nat → Nat → NetResult) (url : String) (delay : Nat)
    (use_keepalive verbose : Bool) (nows : Nat → Timestamp) (fuel : Nat) :
    List LoopIter :=
  loop_url_from nets url delay use_keepalive verbose nows 0 fuel

theorem loop_url_from_length (nets : Nat → Nat → NetResult) (url : String) (delay : Nat)
    (ka vb : Bool) (nows : Nat → Timestamp) :
    ∀ (fuel i : Nat), (loop_url_from nets url delay ka vb nows i fuel).length = fuel := by
  intro fuel
  induction fuel with
  | zero => intro i; rfl
  | succ fuel ih =>
      intro i
      simp only [loop_url_from, List.length_cons, ih]

theorem loop_url_from_get (nets : Nat → Nat → NetResult) (url : String) (delay : Nat)
    (ka vb : Bool) (nows : Nat → Timestamp) :
    ∀ (fuel i j : Nat), j < fuel →
      (loop_url_from nets url delay ka vb nows i fuel)[j]? =
        some (loop_iteration (nets (i + j)) url delay ka vb (nows (i + j))) := by
  intro fuel
  induction fuel with
  | zero => intro i j hj; omega
  | succ fuel ih =>
      intro i j hj
      cases j with
      | zero => simp [loop_url_from]
      | succ j1 =>
          have harith : i + 1 + j1 = i + (j1 + 1) := by omega
          simpa [loop_url_from, harith] using ih (i + 1) j1 (by omega)

/-- Claim C5: in loop mode, in every iteration whose measurement fails the
failure is caught, the iteration prints the timestamp followed by exactly
one `ERROR: <message>` report, and the loop still performs all its
iterations, each proceeding to the next after the normal delay. -/
theorem loop_url_error_isolated (nets : Nat → Nat → NetResult) (url : String)
    (delay : Nat) (ka vb : Bool) (nows : Nat → Timestamp) (fuel i : Nat) (msg : String)
    (hi : i < fuel)
    (hfail : (time_url (nets i) url 1 false ka).result = Except.error msg) :
    (loop_url_steps nets url delay ka vb nows fuel).length = fuel ∧
    (loop_url_steps nets url delay ka vb nows fuel)[i]? =
      some { prints := [loopStamp vb (nows i), "ERROR: " ++ msg], slept := delay } := by
  constructor
  · exact loop_url_from_length nets url delay ka vb nows fuel 0
  · rw [loop_url_steps, loop_url_from_get nets url delay ka vb nows fuel 0 i hi]
    rw [loop_iteration]
    rw [Nat.zero_add, hfail]

/-- Witness for C5: a connection failure in the very first iteration. -/
theorem loop_url_error_isolated_witness :
    (0 < 1) ∧
    ((time_url ((fun _ _ => NetResult.fail "boom") 0) "u" 1 false false).result =
      Except.error "boom") ∧
    ((loop_url_steps (fun _ _ => NetResult.fail "boom") "u" 10 false false
        (fun _ => ⟨2026, 1, 2, 3, 4, 5⟩) 1).length = 1 ∧
     (loop_url_steps (fun _ _ => NetResult.fail "boom") "u" 10 false false
        (fun _ => ⟨2026, 1, 2, 3, 4, 5⟩) 1)[0]? =
       some { prints := [loopStamp false ⟨2026, 1, 2, 3, 4, 5⟩, "ERROR: " ++ "boom"],
              slept := 10 }) :=
  ⟨by decide, by rfl,
   loop_url_error_isolated (fun _ _ => NetResult.fail "boom") "u" 10 false false
     (fun _ => ⟨2026, 1, 2, 3, 4, 5⟩) 1 0 "boom" (by decide) (by rfl)⟩

/-- Whether the pattern is a prefix of the character list. -/
def charsStartWith : List Char → List Char → Bool
  | [], _ => true
  | _ :: _, [] => false
  | p :: ps, c :: cs => p == c && charsStartWith ps cs

/-- Whether the pattern occurs as a contiguous substring, as Python
`in` on strings. -/
def charsHaveSub (pat : List Char) : List Char → Bool
  | [] => charsStartWith pat []
  | c :: rest => charsStartWith pat (c :: rest) || charsHaveSub pat rest

/-- Code of `main`, lines 174-175: the substring test `'://' not in url`
that decides whether to prepend a scheme. -/
def contains_scheme_sep (url : String) : Bool :=
  charsHaveSub "://".toList url.toList

/-- The URL actually used by `main`: the input is used unchanged when it
contains the substring `://`, otherwise `http://` is prepended. -/
def effective_url (url : String) : String :=
  if contains_scheme_sep url then url else "http://" ++ url

/-- Character allowed after the first character of a URI scheme
(letter, digit, `+`, `-` or `.`). -/
def isSchemeTailChar (c : Char) : Bool :=
  c.isAlphanum || c == '+' || c == '-' || c == '.'

/-- Helper for `spec_has_scheme`: the remaining characters form the tail of
a scheme terminated by `:`. -/
def schemeTailColon : List Char → Bool
  | [] => false
  | c :: rest => if c == ':' then true else isSchemeTailChar c && schemeTailColon rest

/-- Formalisation of the claim notion of the URL string having a scheme,
per generic URI syntax: a letter followed by scheme characters and a `:`.
This follows the claim wording, not the source, and is compared against
the source-level test `contains_scheme_sep`. -/
def spec_has_scheme (url : String) : Bool :=
  match url.toList with
  | [] => false
  | c :: rest => c.isAlpha && schemeTailColon rest

/-- Counterexample to claim C9 as stated: `mailto:x` has a scheme, so per
the claim the input should be used unchanged, but the program tests for
the substring `://` and therefore prepends `http://` to it. -/
theorem effective_url_scheme_counterexample :
    spec_has_scheme "mailto:x" = true ∧
    effective_url "mailto:x" = "http://mailto:x" ∧
    "http://mailto:x" ≠ "mailto:x" :=
  ⟨by decide, by decide, by decide⟩

/-- Claim C9 amended: the input URL is used unchanged exactly when it
contains the substring `://`; otherwise `http://` is prepended. -/
theorem effective_url_spec (url : String) :
    (contains_scheme_sep url = true → effective_url url = url) ∧
    (contains_scheme_sep url = false → effective_url url = "http://" ++ url) := by
  constructor
  · intro h
    rw [effective_url, if_pos h]
  · intro h
    rw [effective_url, if_neg ?_]
    rw [h]
    exact Bool.false_ne_true

/-- Witness for the amended C9 on a scheme-less URL. -/
theorem effective_url_spec_witness :
    contains_scheme_sep "example.com" = false ∧
    effective_url "example.com" = "http://example.com" :=
  ⟨by decide, (effective_url_spec "example.com").2 (by decide)⟩

/-- The command line arguments after `parse_args`. -/
structure Args where
  requests : Nat
  keepalive : Bool
  single : Bool
  loop : Bool
  loop_delay : Nat
  loop_verbose : Bool
  info : Bool
  headers : Bool
  parsable : Bool
  report : Bool
  ua_spoof : Bool
  url : String
deriving DecidableEq

/-- Which of the three operating modes `main` dispatches to, and with which
arguments. -/
inductive MainMode where
  | loopMode (url : String) (delay : Nat) (keepalive : Bool) (verbose : Bool)
  | infoMode (url : String) (showHeaders : Bool)
  | timeMode (url : String) (requests : Nat) (keepalive : Bool) (display_progress : Bool)
deriving DecidableEq

/-- The dispatch decision of `main`: the mode entered and whether the
preliminary `get_redirected_url` GET was issued. -/
structure MainPlan where
  mode : MainMode
  resolved_redirect : Bool
deriving DecidableEq

/-- The dispatch performed by `main` after argument parsing.  `--single`
overwrites the request count with 1 and disables keepalive; the URL is
scheme-defaulted; then loop mode, info mode or timing mode is entered.  The
oracle `redirect` stands for `get_redirected_url`, and `resolved_redirect`
records whether that resolving GET request was issued. -/
def main_plan (args : Args) (redirect : String → String) : MainPlan :=
  let requests := if args.single then 1 else args.requests
  let keepalive := if args.single then false else args.keepalive
  let url := effective_url args.url
  if args.loop then
    { mode := MainMode.loopMode (redirect url) args.loop_delay keepalive args.loop_verbose,
      resolved_redirect := true }
  else if args.info then
    { mode := MainMode.infoMode url args.headers, resolved_redirect := false }
  else
    let dp := !(args.parsable || args.report)
    if args.single then
      { mode := MainMode.timeMode url requests keepalive dp, resolved_redirect := false }
    else
      { mode := MainMode.timeMode (redirect url) requests keepalive dp,
        resolved_redirect := true }

/-- Arguments with both `--single` and `--loop` set. -/
def argsSingleLoop : Args :=
  { requests := 5, keepalive := true, single := true, loop := true, loop_delay := 10,
    loop_verbose := false, info := false, headers := false, parsable := false,
    report := false, ua_spoof := false, url := "example.com" }

/-- Arguments with `--single` set and neither `--loop` nor `--info`. -/
def argsSingleOnly : Args :=
  { requests := 5, keepalive := true, single := true, loop := false, loop_delay := 10,
    loop_verbose := false, info := false, headers := false, parsable := false,
    report := false, ua_spoof := false, url := "example.com" }

/-- Counterexample to claim C10 as stated: with `--single` and `--loop`
together, the redirect-resolution GET is issued and the loop polls the
redirected URL, not the input URL, although `--single` is set. -/
theorem main_plan_single_loop_counterexample :
    argsSingleLoop.single = true ∧
    (main_plan argsSingleLoop (fun s => s ++ "/redirected")).resolved_redirect = true ∧
    (main_plan argsSingleLoop (fun s => s ++ "/redirected")).mode =
      MainMode.loopMode "http://example.com/redirected" 10 false false :=
  ⟨rfl, by decide, by decide⟩

/-- Claim C10 amended: when `--single` is set and neither `--loop` nor
`--info` is set, `main` forces the request count to 1, disables connection
reuse, skips the redirect-resolution step, and times the scheme-defaulted
input URL directly. -/
theorem main_plan_single_default_mode (args : Args) (redirect : String → String)
    (hs : args.single = true) (hl : args.loop = false) (hi : args.info = false) :
    main_plan args redirect =
      { mode := MainMode.timeMode (effective_url args.url) 1 false
          (!(args.parsable || args.report)),
        resolved_redirect := false } := by
  simp [main_plan, hs, hl, hi]

/-- Witness for the amended C10 on concrete arguments. -/
theorem main_plan_single_default_mode_witness :
    (argsSingleOnly.single = true) ∧ (argsSingleOnly.loop = false) ∧
    (argsSingleOnly.info = false) ∧
    main_plan argsSingleOnly (fun s => s ++ "/redirected") =
      { mode := MainMode.timeMode (effective_url argsSingleOnly.url) 1 false
          (!(argsSingleOnly.parsable || argsSingleOnly.report)),
        resolved_redirect := false } :=
  ⟨rfl, rfl, rfl,
   main_plan_single_default_mode argsSingleOnly (fun s => s ++ "/redirected") rfl rfl rfl⟩

/-- The summary lines printed at the end of the default timing branch of
`main`, lines 194-203: the machine-parsable line, the three-line report, or
the human-readable `Response times` line. -/
def formatSummary (parsable report : Bool) (requests : Nat) (resp : TimeUrlResult) :
    List String :=
  if parsable then
    [format4Opt resp.min_time ++ " " ++ format4Opt resp.max_time ++ " " ++
      format4Opt resp.avg_time]
  else if report then
    ["Response times in seconds (tested " ++ toString requests ++ " times):",
     "Average: " ++ format4Opt resp.avg_time,
     "Minimum: " ++ format4Opt resp.min_time,
     "Maximum: " ++ format4Opt resp.max_time]
  else
    ["Response times (s): min: " ++ format4Opt resp.min_time ++
      " max: " ++ format4Opt resp.max_time ++ " avg: " ++ format4Opt resp.avg_time]

/-- The default (single-run) timing branch of `main`, lines 190-203, from
the `time_url` call onward: `display_progress` is true unless `--parsable`
or `--report` is set; the sampler runs, and on success the summary lines
are printed.  An exception raised by the sampler propagates out of `main`
(only `KeyboardInterrupt` is caught at top level), so the program
terminates with that error reported and no summary line is printed. -/
def main_single_run (net : Nat → NetResult) (url : String) (requests : Nat)
    (keepalive parsable report : Bool) : Except String (List String) :=
  let dp := !(parsable || report)
  match (time_url net url requests dp keepalive).result with
  | Except.error e => Except.error e
  | Except.ok resp => Except.ok (formatSummary parsable report requests resp)

/-- Claim C4 amended: if any response to a timed request during a sampling
run has an HTTP error status code, the sampler aborts the run by
propagating a failure, so in single-run mode no summary is computed or
printed and the program terminates with a reported error. -/
theorem time_url_error_status_aborts_run (net : Nat → NetResult) (url : String)
    (n : Nat) (ka parsable report : Bool) (j : Nat) (d : ℚ) (resp : HttpResponse)
    (hj : j < n)
    (hresp : net ((if ka then 1 else 0) + j) = NetResult.ok d resp)
    (herr : isHttpError resp.status_code = true) :
    (∃ e, (time_url net url n (!(parsable || report)) ka).result = Except.error e) ∧
    (∃ e, main_single_run net url n ka parsable report = Except.error e) ∧
    (∀ lines, main_single_run net url n ka parsable report ≠ Except.ok lines) := by
  have hnotok : ∀ r, (time_url net url n (!(parsable || report)) ka).result ≠ Except.ok r := by
    intro r hok
    obtain ⟨hpos, ev, htr, hlen, hprops, hmap, htl, hrange, hcalc, hlast⟩ :=
      time_url_ok_spec net url n (!(parsable || report)) ka r hok
    obtain ⟨d2, r2, hr2, herr2⟩ := hrange j hj
    rw [hresp] at hr2
    injection hr2 with hd hr
    subst hr
    rw [herr] at herr2
    simp at herr2
  rcases hres : (time_url net url n (!(parsable || report)) ka).result with e | r
  · refine ⟨⟨e, rfl⟩, ⟨e, ?_⟩, ?_⟩
    · simp only [main_single_run]
      rw [hres]
    · intro lines
      simp only [main_single_run]
      rw [hres]
      simp
  · exact absurd hres (hnotok r)

/-- Oracle on which the single timed request gets a `500` response. -/
def netErr : Nat → NetResult :=
  fun _ => NetResult.ok 1 { status_code := 500, bodySize := 3 }

/-- Witness for the amended C4: a 500 status on the single timed request of
a no-keepalive run aborts it, and the single-run branch prints no summary. -/
theorem time_url_error_status_aborts_run_witness :
    (0 < 1) ∧
    (netErr ((if false then 1 else 0) + 0) =
      NetResult.ok 1 { status_code := 500, bodySize := 3 }) ∧
    (isHttpError (HttpResponse.mk 500 3).status_code = true) ∧
    ((∃ e, (time_url netErr "u" 1 (!(false || false)) false).result = Except.error e) ∧
     (∃ e, main_single_run netErr "u" 1 false false false = Except.error e) ∧
     (∀ lines, main_single_run netErr "u" 1 false false false ≠ Except.ok lines)) :=
  ⟨by decide, rfl, by decide,
   time_url_error_status_aborts_run netErr "u" 1 false false false 0 1
     { status_code := 500, bodySize := 3 } (by decide) rfl (by decide)⟩

end Httpresptime
